import Mathlib

/- Shallow embedding of the misp-tr-cli report tool (src/cli.py): the report
   reconciliation engine (`get_reports`), the derived `ThreatReport` value and
   its score aggregation, the filter pipeline of the `reports` command, the
   team summary statistics of `team_report`, and the scoring upsert
   (`get_scoring_event` / `score`).  Remote MISP data is embedded as in-memory
   records; every fetch in the source merely retrieves the data modelled here. -/

namespace MispTr

/-- One MISP attribute as consumed by cli.py: its `object_relation` key, its
string `value` and its modification `timestamp` (Python `int(a["timestamp"])`). -/
structure Attr where
  object_relation : String
  value : String
  timestamp : Nat
deriving Repr, DecidableEq

/-- One nested MISP object: `template_uuid`, own `timestamp`, and nested
attributes, as read by `get_reports`. -/
structure MObject where
  template_uuid : String
  timestamp : Nat
  attributes : List Attr
deriving Repr, DecidableEq

/-- One extension event (sub-record) of a primary event, as fetched inside the
`get_reports` loop: creator organisation id (`Orgc.id`), tag-id set,
`publish_timestamp`, and its nested objects. -/
structure SubEvent where
  orgc_id : String
  tags : List String
  publish_timestamp : Nat
  objects : List MObject
deriving Repr, DecidableEq

/-- A primary MISP event as consumed by `get_reports`: ids and timestamps are
the fields cli.py reads (`publish_timestamp`, `timestamp`, `Tag`, `Attribute`,
`Object`), and `subevents` holds the `extensionEvents` values that the source
fetches one by one. -/
structure Event where
  id : String
  publish_timestamp : Nat
  timestamp : Nat
  tags : List String
  attributes : List Attr
  objects : List MObject
  subevents : List SubEvent
deriving Repr, DecidableEq

/-- The configuration ids cli.py reads from `app.misp_config`. -/
structure Config where
  approved_tag_id : String
  info_request_tag_id : String
  score_tag_id : String
  threat_report_tag_id : String
  threat_report_object_uuid : String
  scoring_object_uuid : String
  yt_org_id : String
deriving Repr, DecidableEq

/-- A pooled scoring entry `(int(obj["timestamp"]), score, comment)` exactly as
appended in `get_reports`; `score` is `None` until a `score` relation is seen. -/
abbrev ScoreTriple := Nat × Option String × String

/-- The derived report value (`ThreatReport` in cli.py), restricted to the
fields the verified claims read: `_scores` is the raw pooled triple list, the
rest are the computed constructor arguments. -/
structure ThreatReport where
  id : String
  published : Nat
  updated : Nat
  status : String
  _scores : List ScoreTriple
deriving Repr, DecidableEq

/-- Embeds the `updated` watermark computation of `get_reports`:
`updated = max(published, timestamp)`, then maxed with every attribute
timestamp, every object timestamp and every object attribute timestamp, in
source order. -/
def latestUpdated (e : Event) : Nat :=
  let u := max e.publish_timestamp e.timestamp
  let u := e.attributes.foldl (fun acc a => max acc a.timestamp) u
  e.objects.foldl
    (fun acc obj =>
      obj.attributes.foldl (fun acc2 a => max acc2 a.timestamp)
        (max acc obj.timestamp))
    u

/-- One step of the info-request selection loop in `get_reports`: sub-events of
a foreign organisation are skipped, and among sub-events carrying the
info-request tag the one with the strictly greatest publish timestamp wins
(the first such event is kept on ties). -/
def infoRequestStep (cfg : Config) (acc : Option (Nat × SubEvent))
    (se : SubEvent) : Option (Nat × SubEvent) :=
  if se.orgc_id ≠ cfg.yt_org_id then acc
  else if cfg.info_request_tag_id ∈ se.tags then
    match acc with
    | none => some (se.publish_timestamp, se)
    | some (ts, ev) =>
        if ts < se.publish_timestamp then some (se.publish_timestamp, se)
        else some (ts, ev)
  else acc

/-- Embeds the accumulation of `info_requested_at` / `info_request_event`
across the sub-event loop of `get_reports`. -/
def selectInfoRequest (cfg : Config) (subs : List SubEvent) :
    Option (Nat × SubEvent) :=
  subs.foldl (infoRequestStep cfg) none

/-- Embeds the per-object extraction of one scoring entry: `score` starts as
`None`, `comment` as `""`, and the last attribute with the matching relation
wins, as in the source loop. -/
def scoringEntry (obj : MObject) : ScoreTriple :=
  let sv := obj.attributes.foldl
    (fun acc a =>
      if a.object_relation = "score" then (some a.value, acc.2)
      else if a.object_relation = "comment" then (acc.1, a.value)
      else acc)
    ((none : Option String), "")
  (obj.timestamp, sv.1, sv.2)

/-- Embeds the score pooling of `get_reports`: for every sub-event of the
reviewing organisation that carries the score tag, every nested object with the
scoring template contributes one triple, in source order. -/
def collectScores (cfg : Config) (subs : List SubEvent) : List ScoreTriple :=
  subs.foldl
    (fun acc se =>
      if se.orgc_id ≠ cfg.yt_org_id then acc
      else if cfg.score_tag_id ∈ se.tags then
        acc ++
          ((se.objects.filter
              (fun obj => obj.template_uuid == cfg.scoring_object_uuid)).map
            scoringEntry)
      else acc)
    []

/-- Embeds the sequential status assignment of `get_reports`: start at `"new"`;
if an info request was selected, `"info-requested"`, overridden by `"updated"`
when the primary publish timestamp is strictly greater; finally the approved
tag forces `"approved"`. -/
def computeStatus (cfg : Config) (e : Event) : String :=
  if cfg.approved_tag_id ∈ e.tags then "approved"
  else
    match selectInfoRequest cfg e.subevents with
    | none => "new"
    | some (ts, _) =>
        if ts < e.publish_timestamp then "updated" else "info-requested"

/-- Embeds the construction of one `ThreatReport` value from a primary event
inside `get_reports`. -/
def reconcile (cfg : Config) (e : Event) : ThreatReport :=
  { id := e.id
    published := e.publish_timestamp
    updated := latestUpdated e
    status := computeStatus cfg e
    _scores := collectScores cfg e.subevents }

/-- Code-point comparison of character lists, modelling Python's string `<`
(lexicographic by code point), written structurally so the kernel can
evaluate it. -/
def charListLt : List Char → List Char → Bool
  | [], [] => false
  | [], _ :: _ => true
  | _ :: _, [] => false
  | c :: cs, d :: ds =>
      decide (c.toNat < d.toNat) ||
        (c.toNat == d.toNat && charListLt cs ds)

/-- Python string `<` on the underlying character data. -/
def strLt (a b : String) : Bool := charListLt a.data b.data

/-- Python `<` on the optional score component of a triple.  The source never
compares `None` with a string without raising; that unreachable case is
totalised as `none < some`. -/
def optStrLt : Option String → Option String → Bool
  | none, none => false
  | none, some _ => true
  | some _, none => false
  | some x, some y => strLt x y

/-- Python tuple `≤` on score triples, as used by `sorted(self._scores)`:
lexicographic on timestamp, then score value, then comment. -/
def tripleLe (a b : ScoreTriple) : Bool :=
  decide (a.1 < b.1) ||
    (a.1 == b.1 &&
      (optStrLt a.2.1 b.2.1 ||
        (a.2.1 == b.2.1 &&
          (strLt a.2.2 b.2.2 || a.2.2 == b.2.2))))

/-- Stable insertion of a triple into an already sorted list: the element is
placed before the first entry it compares `≤` to, which together with the
`foldr` below reproduces the stable ascending order of Python `sorted`. -/
def insertScore (x : ScoreTriple) : List ScoreTriple → List ScoreTriple
  | [] => [x]
  | y :: ys => if tripleLe x y then x :: y :: ys else y :: insertScore x ys

/-- Python `sorted` on score triples (stable, ascending). -/
def sortScores (l : List ScoreTriple) : List ScoreTriple :=
  l.foldr insertScore []

/-- Decimal digit value of a character, if any. -/
def digitVal (c : Char) : Option Nat :=
  if 48 ≤ c.toNat ∧ c.toNat ≤ 57 then some (c.toNat - 48) else none

/-- Accumulating decimal parser over characters; fails on a non-digit. -/
def parseDigitsAux : List Char → Nat → Option Nat
  | [], acc => some acc
  | c :: cs, acc =>
      match digitVal c with
      | some d => parseDigitsAux cs (acc * 10 + d)
      | none => none

/-- Python `int()` applied to the optional score value of a triple, as in
`int(s[1])`.  The source raises on `None` and on non-numeric strings; those
cases are unreachable for the data the claims evaluate and are totalised
to `0`. -/
def pyInt (v : Option String) : Int :=
  match v with
  | none => 0
  | some s =>
      match s.data with
      | '-' :: cs =>
          match parseDigitsAux cs 0 with
          | some n => -(n : Int)
          | none => 0
      | cs =>
          match parseDigitsAux cs 0 with
          | some n => (n : Int)
          | none => 0

/-- Embeds the `scores` property: `[int(s[1]) for s in sorted(self._scores)]`. -/
def ThreatReport.scores (r : ThreatReport) : List Int :=
  (sortScores r._scores).map (fun s => pyInt s.2.1)

/-- Embeds the `overall_score` property: `None` on an empty score list,
otherwise `sum((i + 1) * s for i, s in enumerate(reversed(scores)))` divided by
`sum(i + 1 for i in range(len(scores)))`; Python float division is modelled
exactly in `ℚ`. -/
def ThreatReport.overall_score (r : ThreatReport) : Option ℚ :=
  let ss := r.scores
  if ss.isEmpty then none
  else
    let weight : ℚ := ((List.range ss.length).map (fun (i : ℕ) => (i : ℚ) + 1)).sum
    some
      (((ss.reverse.enum.map
          (fun p => ((p.1 : ℚ) + 1) * (p.2 : ℚ))).sum) / weight)

/-- Keep-condition of the `since` filter: the source skips a report when
`since` is given and `updated < since`. -/
def sinceOk (since : Option Nat) (updated : Nat) : Bool :=
  match since with
  | none => true
  | some s => decide (s ≤ updated)

/-- Keep-condition of the `until` filter: the source skips a report when
`until` is given and `published > until`. -/
def untilOk (u : Option Nat) (published : Nat) : Bool :=
  match u with
  | none => true
  | some x => decide (published ≤ x)

/-- Keep-condition of the early approved check: the source skips when `only`
is non-empty, the approved tag is present and `"approved"` was not requested. -/
def approvedOk (only : List String) (approved : Bool) : Bool :=
  !(!only.isEmpty && approved && !(only.contains "approved"))

/-- Keep-condition of the status filter: the source skips when `only` is
non-empty and the computed status is not in it. -/
def statusOk (only : List String) (status : String) : Bool :=
  !(!only.isEmpty && !(only.contains status))

/-- Keep-condition of the tri-state score-presence filter: `some true` keeps
only events with a non-empty pooled score list, `some false` only events with
an empty one, `none` applies no filter. -/
def scoreOk (require_score : Option Bool) (scores : List ScoreTriple) : Bool :=
  match require_score with
  | some true => !scores.isEmpty
  | some false => scores.isEmpty
  | none => true

/-- Embeds the per-event filter pipeline of `get_reports`, as the conjunction
of its five skip conditions in source order. -/
def keepEvent (cfg : Config) (only : List String) (since until_ : Option Nat)
    (require_score : Option Bool) (e : Event) : Bool :=
  let r := reconcile cfg e
  sinceOk since r.updated &&
    untilOk until_ r.published &&
    approvedOk only (decide (cfg.approved_tag_id ∈ e.tags)) &&
    statusOk only r.status &&
    scoreOk require_score r._scores

/-- Embeds `get_reports` over an in-memory event stream: the generator yields,
in order, the reconciled report of every event that passes the filters. -/
def getReportsList (cfg : Config) (events : List Event) (only : List String)
    (since until_ : Option Nat) (require_score : Option Bool) :
    List ThreatReport :=
  (events.filter (keepEvent cfg only since until_ require_score)).map
    (reconcile cfg)

/-- Embeds the `--scored` / `--unscored` flag resolution at the top of the
`reports` command, with its branches in source order; an abort is an
`Except.error` carrying the source's message. -/
def resolve_require_score (scored unscored : Bool) :
    Except String (Option Bool) :=
  if scored then .ok (some true)
  else if unscored then .ok (some false)
  else if scored && unscored then
    .error "--unscored and --scored are mutually exclusive"
  else .ok none

/-- Stable insertion for rationals, used to model Python's `sorted` inside
`statistics.median`. -/
def insertQ (x : ℚ) : List ℚ → List ℚ
  | [] => [x]
  | y :: ys => if x ≤ y then x :: y :: ys else y :: insertQ x ys

/-- Python `sorted` on rationals (stable, ascending). -/
def sortQ (l : List ℚ) : List ℚ :=
  l.foldr insertQ []

/-- Embeds `statistics.median`: middle element of the sorted list for odd
length, mean of the two middle elements for even length.  The source raises on
an empty list; `team_report` only calls it on non-empty samples, and the
unreachable default is `0`. -/
def pyMedian (l : List ℚ) : ℚ :=
  let s := sortQ l
  let n := s.length
  if n % 2 = 1 then s.getD (n / 2) 0
  else (s.getD (n / 2 - 1) 0 + s.getD (n / 2) 0) / 2

/-- Embeds the fallible core of `statistics.stdev`: the sample variance, which
raises `StatisticsError` when the sample has fewer than two values (the
standard deviation is its square root, which cannot change the error
behaviour). -/
def sampleVariance (l : List ℚ) : Except String ℚ :=
  if l.length < 2 then .error "variance requires at least two data points"
  else
    let m := l.sum / l.length
    .ok (((l.map (fun x => (x - m) ^ 2)).sum) / ((l.length : ℚ) - 1))

/-- Embeds the final statistics block of `team_report`: it is guarded only by
`if scores:`, and inside the guard it renders the average `sum/len`, the
median, and the result of the stdev computation. -/
def teamStats (scores : List ℚ) : Option (ℚ × ℚ × Except String ℚ) :=
  if scores.isEmpty then none
  else some (scores.sum / scores.length, pyMedian scores, sampleVariance scores)

/-- Source constant `DISTRIBUTION_OWN_ORG_ONLY = 0`. -/
def DISTRIBUTION_OWN_ORG_ONLY : Nat := 0

/-- A scoring object as created by the `score` command (template uuid plus the
`score` and `comment` attribute values). -/
structure ScoringObj where
  template_uuid : String
  score_value : Int
  comment : String
deriving Repr, DecidableEq

/-- A MISP event as seen by the mutation path (`get_scoring_event` / `score`):
server id, uuid, creator organisation, info string, extends-reference,
distribution, tags and nested scoring objects. -/
structure MEvent where
  id : Nat
  uuid : Nat
  orgc_id : String
  info : String
  extends_uuid : Option Nat
  distribution : Nat
  tags : List String
  objects : List ScoringObj
deriving Repr, DecidableEq

/-- The remote MISP store for the mutation path: its events plus a fresh-id
counter standing for the server's id/uuid assignment. -/
structure MispState where
  events : List MEvent
  nextId : Nat
deriving Repr, DecidableEq

/-- Platform fetch of an event by id. -/
def getEventById (st : MispState) (i : Nat) : Option MEvent :=
  st.events.find? (fun ev => ev.id == i)

/-- Platform resolution of `extensionEvents` for an extended fetch: every
event whose extends-reference is the primary event's uuid. -/
def extensionEvents (st : MispState) (orig : MEvent) : List MEvent :=
  st.events.filter (fun ev => ev.extends_uuid == some orig.uuid)

/-- Embeds `get_scoring_event`: return the first extension event created by
the reviewing organisation that carries the score tag (reuse, `created =
false`); otherwise a fresh unsaved event extending the original with
own-organisation-only distribution (`created = true`).  The platform records
the API caller's organisation — the reviewing organisation — as the creator of
events it adds, so the template carries `yt_org_id`. -/
def get_scoring_event (cfg : Config) (st : MispState) (orig : MEvent) :
    MEvent × Bool :=
  match (extensionEvents st orig).find?
      (fun se =>
        se.orgc_id == cfg.yt_org_id && se.tags.contains cfg.score_tag_id) with
  | some se => (se, false)
  | none =>
      ({ id := 0
         uuid := 0
         orgc_id := cfg.yt_org_id
         info := "Scoring TR-" ++ toString orig.id ++ ": " ++ orig.info
         extends_uuid := some orig.uuid
         distribution := DISTRIBUTION_OWN_ORG_ONLY
         tags := []
         objects := [] }, true)

/-- Platform `add_event`: the server stores the event under a fresh id and
uuid and returns the stored copy. -/
def addEvent (st : MispState) (e : MEvent) : MispState × MEvent :=
  let e2 := { e with id := st.nextId, uuid := st.nextId }
  ({ events := st.events ++ [e2], nextId := st.nextId + 1 }, e2)

/-- Platform `tag`: append a tag to the event with the given id. -/
def tagEvent (st : MispState) (i : Nat) (t : String) : MispState :=
  { st with
    events := st.events.map
      (fun ev => if ev.id == i then { ev with tags := ev.tags ++ [t] } else ev) }

/-- Platform `add_object`: append a nested object to the event with the given
id. -/
def addObject (st : MispState) (i : Nat) (o : ScoringObj) : MispState :=
  { st with
    events := st.events.map
      (fun ev =>
        if ev.id == i then { ev with objects := ev.objects ++ [o] } else ev) }

/-- The scoring object built by the `score` command from the prompted value
and the edited justification. -/
def mkScoringObject (cfg : Config) (v : Int) (j : String) : ScoringObj :=
  { template_uuid := cfg.scoring_object_uuid, score_value := v, comment := j }

/-- Embeds the `score` command as a state transition: abort (state unchanged)
when the event is missing, lacks the threat-report tag, or the justification
is empty; otherwise upsert the scoring container via `get_scoring_event` —
on creation add the event, tag it with the score tag, then add the scoring
object; on reuse just add the scoring object. -/
def score (cfg : Config) (st : MispState) (event_id : Nat) (scorevalue : Int)
    (justification : String) : MispState :=
  match getEventById st event_id with
  | none => st
  | some orig =>
      if cfg.threat_report_tag_id ∉ orig.tags then st
      else if justification = "" then st
      else
        let so := mkScoringObject cfg scorevalue justification
        match get_scoring_event cfg st orig with
        | (se, false) => addObject st se.id so
        | (se, true) =>
            let stev := addEvent st se
            let st2 := tagEvent stev.1 stev.2.id cfg.score_tag_id
            addObject st2 stev.2.id so

/-- The scoring containers of a primary event: its extension events created by
the reviewing organisation that carry the score tag. -/
def scoringContainers (cfg : Config) (st : MispState) (orig : MEvent) :
    List MEvent :=
  (extensionEvents st orig).filter
    (fun se =>
      se.orgc_id == cfg.yt_org_id && se.tags.contains cfg.score_tag_id)

/-- Running maximum of a list of naturals, `none` on the empty list; used to
state which info-request timestamp the reconciliation loop selects. -/
def optMaxNat (acc : Option Nat) (x : Nat) : Option Nat :=
  match acc with
  | none => some x
  | some m => some (max m x)

/-- Maximum of a list of naturals as an `Option`. -/
def listMaxNat (l : List Nat) : Option Nat :=
  l.foldl optMaxNat none

/-- The qualifying predicate of the info-request selection: sub-event of the
reviewing organisation carrying the info-request tag. -/
def infoRequestQual (cfg : Config) (se : SubEvent) : Bool :=
  decide (se.orgc_id = cfg.yt_org_id) && decide (cfg.info_request_tag_id ∈ se.tags)

lemma le_foldl {α : Type} (g : Nat → α → Nat) (h : ∀ b x, b ≤ g b x) :
    ∀ (l : List α) (acc : Nat), acc ≤ l.foldl g acc := by
  intro l
  induction l with
  | nil => intro acc; simp
  | cons x xs ih => intro acc; exact le_trans (h acc x) (ih (g acc x))

lemma publish_le_latestUpdated (e : Event) :
    e.publish_timestamp ≤ latestUpdated e := by
  unfold latestUpdated
  refine le_trans (le_max_left e.publish_timestamp e.timestamp) ?_
  refine le_trans (le_foldl _ (fun b a => le_max_left b a.timestamp) e.attributes _) ?_
  refine le_foldl _ (fun b obj => ?_) e.objects _
  exact le_trans (le_max_left b obj.timestamp)
    (le_foldl _ (fun b2 a => le_max_left b2 a.timestamp) obj.attributes _)

lemma status_of_approved (cfg : Config) (e : Event)
    (h : cfg.approved_tag_id ∈ e.tags) : computeStatus cfg e = "approved" := by
  simp [computeStatus, h]

lemma computeStatus_mem (cfg : Config) (e : Event) :
    computeStatus cfg e ∈ (["new", "info-requested", "updated", "approved"] : List String) := by
  unfold computeStatus
  split
  · simp
  · split
    · simp
    · split <;> simp

lemma infoRequestStep_fst (cfg : Config) (acc : Option (Nat × SubEvent))
    (se : SubEvent) :
    (infoRequestStep cfg acc se).map Prod.fst =
      (if infoRequestQual cfg se then
        optMaxNat (acc.map Prod.fst) se.publish_timestamp
      else acc.map Prod.fst) := by
  unfold infoRequestStep infoRequestQual
  by_cases horg : se.orgc_id = cfg.yt_org_id
  · by_cases htag : cfg.info_request_tag_id ∈ se.tags
    · cases acc with
      | none => simp [horg, htag, optMaxNat]
      | some tse =>
          obtain ⟨ts, ev⟩ := tse
          by_cases hlt : ts < se.publish_timestamp
          · simp [horg, htag, hlt, optMaxNat, Nat.max_eq_right (le_of_lt hlt)]
          · simp [horg, htag, hlt, optMaxNat, Nat.max_eq_left (le_of_not_lt hlt)]
    · simp [horg, htag]
  · simp [horg]

lemma selectInfoRequest_fst_aux (cfg : Config) (subs : List SubEvent) :
    ∀ acc : Option (Nat × SubEvent),
      (subs.foldl (infoRequestStep cfg) acc).map Prod.fst =
        ((subs.filter (infoRequestQual cfg)).map SubEvent.publish_timestamp).foldl
          optMaxNat (acc.map Prod.fst) := by
  induction subs with
  | nil => intro acc; rfl
  | cons se rest ih =>
      intro acc
      by_cases hq : infoRequestQual cfg se = true
      · have hstep := infoRequestStep_fst cfg acc se
        rw [if_pos hq] at hstep
        simp only [List.foldl_cons, List.filter_cons_of_pos hq, List.map_cons]
        rw [ih (infoRequestStep cfg acc se), hstep]
      · have hstep := infoRequestStep_fst cfg acc se
        rw [if_neg hq] at hstep
        simp only [List.foldl_cons, List.filter_cons_of_neg (by simpa using hq)]
        rw [ih (infoRequestStep cfg acc se), hstep]

lemma selectInfoRequest_fst (cfg : Config) (subs : List SubEvent) :
    (selectInfoRequest cfg subs).map Prod.fst =
      listMaxNat ((subs.filter (infoRequestQual cfg)).map SubEvent.publish_timestamp) := by
  simpa using selectInfoRequest_fst_aux cfg subs none

lemma range_map_add_one_sum (n : ℕ) :
    (((List.range n).map (fun (i : ℕ) => (i : ℚ) + 1)).sum) =
      (n : ℚ) * ((n : ℚ) + 1) / 2 := by
  induction n with
  | zero => simp
  | succ k ih =>
      rw [List.range_succ, List.map_append, List.sum_append, ih]
      simp only [List.map_cons, List.map_nil, List.sum_cons, List.sum_nil]
      push_cast
      ring

lemma enumFrom_weighted_sum (l : List ℤ) :
    ∀ k : ℕ,
      ((List.enumFrom k l).map (fun p => ((p.1 : ℚ) + 1) * (p.2 : ℚ))).sum =
        ∑ i ∈ Finset.range l.length,
          (((k + i : ℕ) : ℚ) + 1) * ((l.getD i 0 : ℤ) : ℚ) := by
  induction l with
  | nil => intro k; simp
  | cons x xs ih =>
      intro k
      rw [show List.enumFrom k (x :: xs) = (k, x) :: List.enumFrom (k + 1) xs from rfl]
      rw [List.map_cons, List.sum_cons, ih (k + 1), List.length_cons,
        Finset.sum_range_succ']
      simp only [List.getD_cons_succ, List.getD_cons_zero, Nat.add_zero]
      rw [add_comm]
      congr 1
      apply Finset.sum_congr rfl
      intro i _
      have hk : k + 1 + i = k + (i + 1) := by omega
      rw [hk]

lemma reverse_weighted_sum (l : List ℤ) :
    ((l.reverse.enum.map (fun p => ((p.1 : ℚ) + 1) * (p.2 : ℚ))).sum) =
      ∑ i ∈ Finset.range l.length,
        ((l.length : ℚ) - (i : ℚ)) * ((l.getD i 0 : ℤ) : ℚ) := by
  have h0 : l.reverse.enum = List.enumFrom 0 l.reverse := rfl
  rw [h0, enumFrom_weighted_sum l.reverse 0, List.length_reverse,
    ← Finset.sum_range_reflect]
  apply Finset.sum_congr rfl
  intro i hi
  have hin : i < l.length := Finset.mem_range.mp hi
  have hrev : l.reverse.getD (l.length - 1 - i) 0 = l.getD i 0 := by
    have h1 : l.length - 1 - i < l.reverse.length := by
      rw [List.length_reverse]; omega
    rw [List.getD_eq_getElem _ _ h1, List.getD_eq_getElem _ _ hin,
      List.getElem_reverse]
    congr 1
    omega
  rw [hrev]
  have hc : (((0 + (l.length - 1 - i) : ℕ) : ℚ)) + 1 = (l.length : ℚ) - (i : ℚ) := by
    have h2 : (0 + (l.length - 1 - i) : ℕ) = l.length - (i + 1) := by omega
    rw [h2, Nat.cast_sub (by omega)]
    push_cast
    ring
  rw [hc]

lemma map_eq_self_of_mem {α : Type} {l : List α} {f : α → α}
    (h : ∀ x ∈ l, f x = x) : l.map f = l := by
  induction l with
  | nil => rfl
  | cons x xs ih =>
      rw [List.map_cons, h x (by simp), ih (fun y hy => h y (by simp [hy]))]

lemma find?_filter_of_imp {α : Type} (p k : α → Bool)
    (h : ∀ x, p x = true → k x = true) :
    ∀ l : List α, (l.filter k).find? p = l.find? p := by
  intro l
  induction l with
  | nil => rfl
  | cons x xs ih =>
      by_cases hk : k x = true
      · cases hp : p x
        · simp [List.filter_cons, hk, List.find?_cons, hp, ih]
        · simp [List.filter_cons, hk, List.find?_cons, hp]
      · have hp : p x = false := by
          cases hpx : p x
          · rfl
          · exact absurd (h x hpx) hk
        simp [List.filter_cons, hk, List.find?_cons, hp, ih]

lemma selectInfoRequest_filter_orgc (cfg : Config) (subs : List SubEvent) :
    selectInfoRequest cfg
        (subs.filter (fun se => se.orgc_id == cfg.yt_org_id)) =
      selectInfoRequest cfg subs := by
  unfold selectInfoRequest
  suffices h : ∀ acc,
      (subs.filter (fun se => se.orgc_id == cfg.yt_org_id)).foldl
          (infoRequestStep cfg) acc =
        subs.foldl (infoRequestStep cfg) acc from h none
  induction subs with
  | nil => intro acc; rfl
  | cons se rest ih =>
      intro acc
      by_cases horg : se.orgc_id = cfg.yt_org_id
      · simp only [List.filter_cons, horg, beq_self_eq_true, if_pos,
          List.foldl_cons]
        exact ih (infoRequestStep cfg acc se)
      · have hstep : infoRequestStep cfg acc se = acc := by
          simp [infoRequestStep, horg]
        simp only [List.filter_cons, List.foldl_cons,
          beq_eq_false_iff_ne.mpr horg, Bool.false_eq_true, if_neg,
          not_false_eq_true, hstep]
        exact ih acc

lemma collectScores_filter_orgc (cfg : Config) (subs : List SubEvent) :
    collectScores cfg (subs.filter (fun se => se.orgc_id == cfg.yt_org_id)) =
      collectScores cfg subs := by
  unfold collectScores
  suffices h : ∀ acc : List ScoreTriple,
      (subs.filter (fun se => se.orgc_id == cfg.yt_org_id)).foldl
          (fun acc se =>
            if se.orgc_id ≠ cfg.yt_org_id then acc
            else if cfg.score_tag_id ∈ se.tags then
              acc ++
                ((se.objects.filter
                    (fun obj => obj.template_uuid == cfg.scoring_object_uuid)).map
                  scoringEntry)
            else acc) acc =
        subs.foldl
          (fun acc se =>
            if se.orgc_id ≠ cfg.yt_org_id then acc
            else if cfg.score_tag_id ∈ se.tags then
              acc ++
                ((se.objects.filter
                    (fun obj => obj.template_uuid == cfg.scoring_object_uuid)).map
                  scoringEntry)
            else acc) acc from h []
  induction subs with
  | nil => intro acc; rfl
  | cons se rest ih =>
      intro acc
      by_cases horg : se.orgc_id = cfg.yt_org_id
      · simp only [List.filter_cons, horg, beq_self_eq_true, if_pos,
          List.foldl_cons]
        exact ih _
      · simp only [List.filter_cons, List.foldl_cons,
          beq_eq_false_iff_ne.mpr horg, Bool.false_eq_true, if_neg,
          not_false_eq_true, horg, ne_eq, ite_true, if_pos]
        exact ih acc

/-- Predicate keeping every event that is not a foreign-organisation
extension of the given primary record. -/
def keepsOwnExtensions (cfg : Config) (orig : MEvent) (ev : MEvent) : Bool :=
  !(ev.extends_uuid == some orig.uuid) || ev.orgc_id == cfg.yt_org_id

/-- Fixed configuration used by the concrete witnesses. -/
def cfg0 : Config :=
  { approved_tag_id := "10"
    info_request_tag_id := "11"
    score_tag_id := "12"
    threat_report_tag_id := "13"
    threat_report_object_uuid := "tr-uuid"
    scoring_object_uuid := "sc-uuid"
    yt_org_id := "1" }

/-- Report carrying the spec's weighted-score example entries
`[(t=1, 4), (t=2, 8), (t=3, 12)]`. -/
def c1_report : ThreatReport :=
  { id := "1", published := 0, updated := 0, status := "new",
    _scores := [(1, some "4", ""), (2, some "8", ""), (3, some "12", "")] }

/-- A published event carrying the approved tag and nothing else. -/
def e_approved : Event :=
  { id := "5", publish_timestamp := 100, timestamp := 90, tags := ["10"],
    attributes := [], objects := [], subevents := [] }

/-- A plain unapproved event with no sub-records. -/
def e_plain : Event :=
  { id := "7", publish_timestamp := 5, timestamp := 6, tags := [],
    attributes := [], objects := [], subevents := [] }

/-- The spec's info-request example: published at 10, one info request from
the reviewing organisation published at 20. -/
def e_ir10 : Event :=
  { id := "8", publish_timestamp := 10, timestamp := 10, tags := [],
    attributes := [], objects := [],
    subevents :=
      [{ orgc_id := "1", tags := ["11"], publish_timestamp := 20,
         objects := [] }] }

/-- The spec's republish example: same event republished at 30. -/
def e_ir30 : Event :=
  { id := "8", publish_timestamp := 30, timestamp := 30, tags := [],
    attributes := [], objects := [],
    subevents :=
      [{ orgc_id := "1", tags := ["11"], publish_timestamp := 20,
         objects := [] }] }

/-- A stored primary record carrying the threat-report tag, owned by a
reviewed team. -/
def orig0 : MEvent :=
  { id := 1, uuid := 101, orgc_id := "2", info := "TR", extends_uuid := none,
    distribution := 0, tags := ["13"], objects := [] }

/-- Initial remote state for the scoring-upsert witness: just the primary
record, no scoring container yet. -/
def st0W : MispState := { events := [orig0], nextId := 200 }

/-- C1 counterexample: on the spec's own example entries
`[(t=1, 4), (t=2, 8), (t=3, 12)]` the code computes `overall_score = 40/6 =
20/3` — the newest entry gets weight 1 and the oldest weight 3 — and not the
claimed recency-weighted `56/6`. -/
theorem c1_recency_weighting_counterexample :
    c1_report.overall_score = some (20 / 3 : ℚ) ∧ (20 / 3 : ℚ) ≠ 56 / 6 := by
  constructor
  · have h4 : pyInt (some "4") = 4 := by decide
    have h8 : pyInt (some "8") = 8 := by decide
    have h12 : pyInt (some "12") = 12 := by decide
    norm_num [ThreatReport.overall_score, ThreatReport.scores, c1_report,
      sortScores, insertScore, tripleLe, h4, h8, h12, List.enum,
      List.enumFrom, List.range_succ]
  · norm_num

/-- C1 (amended): for every report, `overall_score` is `None` on an empty
pooled score list, and on a non-empty ascending score list `s_1 .. s_N` it
equals `Σ((N+1-i)·s_i) / (N(N+1)/2)`: the OLDEST entry gets weight `N` and the
newest weight 1 (the code weights by age, not recency). -/
theorem c1_overall_score_age_weighted (r : ThreatReport) :
    (r.scores = [] → r.overall_score = none) ∧
    (r.scores ≠ [] → r.overall_score =
      some ((∑ i ∈ Finset.range r.scores.length,
          ((r.scores.length : ℚ) - (i : ℚ)) * ((r.scores.getD i 0 : ℤ) : ℚ)) /
        ((r.scores.length : ℚ) * ((r.scores.length : ℚ) + 1) / 2))) := by
  constructor
  · intro h
    simp [ThreatReport.overall_score, h]
  · intro h
    have hne : r.scores.isEmpty = false := by
      simpa [List.isEmpty_iff] using h
    simp only [ThreatReport.overall_score, hne, Bool.false_eq_true, if_false,
      if_neg]
    rw [range_map_add_one_sum, reverse_weighted_sum]

/-- C1 witness: the amended weighting evaluated on the concrete example
report. -/
theorem c1_overall_score_age_weighted_witness :
    c1_report.scores ≠ [] ∧
    c1_report.overall_score =
      some ((∑ i ∈ Finset.range c1_report.scores.length,
          ((c1_report.scores.length : ℚ) - (i : ℚ)) *
            ((c1_report.scores.getD i 0 : ℤ) : ℚ)) /
        ((c1_report.scores.length : ℚ) * ((c1_report.scores.length : ℚ) + 1) / 2)) :=
  ⟨by decide, (c1_overall_score_age_weighted c1_report).2 (by decide)⟩

/-- C2: with both `--scored` and `--unscored` supplied, the `reports` command
does NOT abort: the `if scored` branch wins, `require_score` resolves to
`some true`, and the mutually-exclusive abort branch is dead code (it sits
behind `elif` after branches covering both flags); with neither flag,
`require_score` resolves to `none`. -/
theorem c2_both_flags_take_scored_branch :
    resolve_require_score true true = Except.ok (some true) ∧
    resolve_require_score false false = Except.ok none :=
  ⟨rfl, rfl⟩

/-- C3: the approved tag forces status `"approved"` regardless of every other
input, and every derived status is one of the four known statuses. -/
theorem c3_approved_dominates (cfg : Config) (e : Event) :
    (cfg.approved_tag_id ∈ e.tags → (reconcile cfg e).status = "approved") ∧
    (reconcile cfg e).status ∈
      (["new", "info-requested", "updated", "approved"] : List String) := by
  constructor
  · intro h
    simp [reconcile, status_of_approved cfg e h]
  · simpa [reconcile] using computeStatus_mem cfg e

/-- C3 witness: the approved fixture event derives status `"approved"`. -/
theorem c3_approved_dominates_witness :
    (reconcile cfg0 e_approved).status = "approved" ∧
    (reconcile cfg0 e_approved).status ∈
      (["new", "info-requested", "updated", "approved"] : List String) :=
  ⟨(c3_approved_dominates cfg0 e_approved).1 (by decide),
    (c3_approved_dominates cfg0 e_approved).2⟩

/-- C4: every report yielded by the listing satisfies
`published ≤ updated` — the updated watermark is clamped from below by the
publish timestamp. -/
theorem c4_updated_ge_published (cfg : Config) (events : List Event)
    (only : List String) (s u : Option Nat) (rs : Option Bool)
    (r : ThreatReport) (hr : r ∈ getReportsList cfg events only s u rs) :
    r.published ≤ r.updated := by
  unfold getReportsList at hr
  rcases List.mem_map.mp hr with ⟨e, _, hre⟩
  subst hre
  simpa [reconcile] using publish_le_latestUpdated e

/-- C4 witness: the clamp evaluated on a kept concrete report. -/
theorem c4_updated_ge_published_witness :
    (reconcile cfg0 e_approved).published ≤ (reconcile cfg0 e_approved).updated :=
  c4_updated_ge_published cfg0 [e_approved] [] none none none
    (reconcile cfg0 e_approved) (by decide)

/-- C7: the statistics block of `team_report` is guarded only by non-emptiness
of the score sample, so a singleton sample reaches the stdev computation,
which errors (`StatisticsError` in the source) instead of being skipped. -/
theorem c7_singleton_sample_attempts_stdev :
    teamStats [5] =
      some (5, 5, Except.error "variance requires at least two data points") := by
  simp [teamStats, pyMedian, sortQ, insertQ, sampleVariance]

/-- C5: for an unapproved event, the status is determined by the maximum
publish timestamp among the reviewing organisation's info-request sub-events:
absent ⇒ `"new"`; present ⇒ `"info-requested"`, except `"updated"` when the
primary publish timestamp is strictly greater. -/
theorem c5_info_request_status (cfg : Config) (e : Event)
    (h : cfg.approved_tag_id ∉ e.tags) :
    (reconcile cfg e).status =
      match listMaxNat ((e.subevents.filter (infoRequestQual cfg)).map
          SubEvent.publish_timestamp) with
      | none => "new"
      | some m =>
          if m < e.publish_timestamp then "updated" else "info-requested" := by
  have hfst := selectInfoRequest_fst cfg e.subevents
  simp only [reconcile]
  unfold computeStatus
  rw [if_neg h]
  cases hsel : selectInfoRequest cfg e.subevents with
  | none =>
      have hmax : listMaxNat ((e.subevents.filter (infoRequestQual cfg)).map
          SubEvent.publish_timestamp) = none := by
        rw [← hfst, hsel]; rfl
      rw [hmax]
  | some p =>
      obtain ⟨ts, se⟩ := p
      have hmax : listMaxNat ((e.subevents.filter (infoRequestQual cfg)).map
          SubEvent.publish_timestamp) = some ts := by
        rw [← hfst, hsel]; rfl
      rw [hmax]

/-- C5 witness: the spec's example — published at 10 with an info request at
20 gives `"info-requested"`; republished at 30 it gives `"updated"`. -/
theorem c5_info_request_status_witness :
    cfg0.approved_tag_id ∉ e_ir10.tags ∧
    (reconcile cfg0 e_ir10).status = "info-requested" ∧
    (reconcile cfg0 e_ir30).status = "updated" :=
  ⟨by decide,
    (c5_info_request_status cfg0 e_ir10 (by decide)).trans (by decide),
    (c5_info_request_status cfg0 e_ir30 (by decide)).trans (by decide)⟩

lemma statusOk_eq (only : List String) (status : String) :
    statusOk only status = (only.isEmpty || only.contains status) := by
  cases hI : only.isEmpty <;> cases hC : only.contains status <;>
    simp [statusOk, hI, hC] <;> simp_all

lemma keep_status_factor (A B E : Bool) (only : List String) (ap : Bool)
    (status : String) (hap : ap = true → status = "approved") :
    (A && B && approvedOk only ap && statusOk only status && E) =
      ((A && B && approvedOk [] ap && statusOk [] status && E) &&
        (only.isEmpty || only.contains status)) := by
  have hC0 : approvedOk [] ap = true := by simp [approvedOk]
  have hD0 : statusOk [] status = true := by simp [statusOk]
  rw [hC0, hD0, statusOk_eq]
  cases hap2 : ap with
  | false =>
      have hC : approvedOk only false = true := by simp [approvedOk]
      rw [hC]
      cases A <;> cases B <;> cases E <;>
        cases hP : (only.isEmpty || only.contains status) <;> simp [hP]
  | true =>
      have hst : status = "approved" := hap hap2
      subst hst
      have hC : approvedOk only true =
          (only.isEmpty || only.contains "approved") := by
        cases hI : only.isEmpty <;> cases hCt : only.contains "approved" <;>
          simp [approvedOk, hI, hCt] <;> simp_all
      rw [hC]
      cases A <;> cases B <;> cases E <;>
        cases hP : (only.isEmpty || only.contains "approved") <;> simp [hP]

/-- C6 (amended): the status filter factors out of the pipeline as
`only.isEmpty || status ∈ only` — with NO explicit status set nothing is
excluded by status, so Approved reports DO appear in the default listing;
with an explicit set a report is kept iff its status is in the set. -/
theorem c6_status_filter (cfg : Config) (only : List String)
    (s u : Option Nat) (rs : Option Bool) (e : Event) :
    keepEvent cfg only s u rs e =
      (keepEvent cfg [] s u rs e &&
        (only.isEmpty || only.contains (reconcile cfg e).status)) := by
  simp only [keepEvent]
  apply keep_status_factor
  intro hd
  simp only [reconcile]
  exact status_of_approved cfg e (of_decide_eq_true hd)

/-- C6 counterexample: with no explicit status set, an approved report is NOT
excluded — the default listing yields it. -/
theorem c6_default_excludes_approved_counterexample :
    (reconcile cfg0 e_approved).status = "approved" ∧
    getReportsList cfg0 [e_approved] [] none none none =
      [reconcile cfg0 e_approved] := by
  constructor
  · decide
  · decide

/-- C8: the `since` filter is monotone — every report returned under the later
cutoff `Y` is returned under any earlier cutoff `X < Y` — and the `until`
filter keeps a report exactly when `published ≤ until` (it skips exactly when
`published > until`). -/
theorem c8_since_monotone_until_bound (cfg : Config) (events : List Event)
    (only : List String) (rs : Option Bool) (u : Option Nat) (X Y : Nat)
    (r : ThreatReport) (e : Event) (u2 : Nat) (hXY : X < Y)
    (hr : r ∈ getReportsList cfg events only (some Y) u rs) :
    r ∈ getReportsList cfg events only (some X) u rs ∧
    keepEvent cfg only none (some u2) rs e =
      (keepEvent cfg only none none rs e &&
        decide ((reconcile cfg e).published ≤ u2)) := by
  constructor
  · unfold getReportsList at hr ⊢
    rcases List.mem_map.mp hr with ⟨e0, he0, hre⟩
    rcases List.mem_filter.mp he0 with ⟨hmem, hkeep⟩
    refine List.mem_map.mpr ⟨e0, List.mem_filter.mpr ⟨hmem, ?_⟩, hre⟩
    simp only [keepEvent, Bool.and_eq_true] at hkeep ⊢
    obtain ⟨⟨⟨⟨hs, hB⟩, hC⟩, hD⟩, hE⟩ := hkeep
    refine ⟨⟨⟨⟨?_, hB⟩, hC⟩, hD⟩, hE⟩
    simp only [sinceOk, decide_eq_true_eq] at hs ⊢
    omega
  · simp only [keepEvent, sinceOk, untilOk]
    cases hA : approvedOk only (decide (cfg.approved_tag_id ∈ e.tags)) <;>
      cases hD : statusOk only (reconcile cfg e).status <;>
        cases hE : scoreOk rs (reconcile cfg e)._scores <;>
          cases hU : decide ((reconcile cfg e).published ≤ u2) <;>
            simp [hA, hD, hE, hU]

/-- C8 witness: monotonicity and the until bound evaluated on a concrete kept
report with cutoffs 1 < 2. -/
theorem c8_since_monotone_until_bound_witness :
    reconcile cfg0 e_plain ∈
      getReportsList cfg0 [e_plain] [] (some 1) none none ∧
    keepEvent cfg0 [] none (some 3) none e_plain =
      (keepEvent cfg0 [] none none none e_plain &&
        decide ((reconcile cfg0 e_plain).published ≤ 3)) :=
  c8_since_monotone_until_bound cfg0 [e_plain] [] none none 1 2
    (reconcile cfg0 e_plain) e_plain 3 (by decide) (by decide)

/-- C10: sub-records created by a foreign organisation are ignored entirely —
dropping them changes neither the reconciled report (status, scores,
timestamps) nor the scoring-container lookup of the upsert. -/
theorem c10_foreign_subrecords_ignored (cfg : Config) (e : Event)
    (st : MispState) (orig : MEvent) :
    reconcile cfg
        { e with subevents :=
            e.subevents.filter (fun se => se.orgc_id == cfg.yt_org_id) } =
      reconcile cfg e ∧
    get_scoring_event cfg
        { st with events := st.events.filter (keepsOwnExtensions cfg orig) } orig =
      get_scoring_event cfg st orig := by
  constructor
  · have h1 := selectInfoRequest_filter_orgc cfg e.subevents
    have h2 := collectScores_filter_orgc cfg e.subevents
    simp [reconcile, latestUpdated, computeStatus, h1, h2]
  · have hf : (extensionEvents
        { st with events := st.events.filter (keepsOwnExtensions cfg orig) }
          orig).find?
          (fun se =>
            se.orgc_id == cfg.yt_org_id &&
              se.tags.contains cfg.score_tag_id) =
        (extensionEvents st orig).find?
          (fun se =>
            se.orgc_id == cfg.yt_org_id &&
              se.tags.contains cfg.score_tag_id) := by
      unfold extensionEvents
      simp only [List.filter_filter]
      rw [show (List.filter
          (fun a => (a.extends_uuid == some orig.uuid) &&
            keepsOwnExtensions cfg orig a) st.events) =
        (List.filter
          (fun a => keepsOwnExtensions cfg orig a &&
            (a.extends_uuid == some orig.uuid)) st.events) from
        List.filter_congr (fun a _ => Bool.and_comm _ _)]
      rw [← List.filter_filter]
      apply find?_filter_of_imp
      intro x hx
      simp only [Bool.and_eq_true] at hx
      simp [keepsOwnExtensions, hx.1]
    unfold get_scoring_event
    rw [hf]

lemma map_if_fresh (evs : List MEvent) (n : Nat) (f : MEvent → MEvent)
    (h : ∀ ev ∈ evs, ev.id < n) :
    evs.map (fun ev => if ev.id == n then f ev else ev) = evs := by
  apply map_eq_self_of_mem
  intro ev hev
  have hne : ev.id ≠ n := Nat.ne_of_lt (h ev hev)
  simp [hne]

/-- Shape of the scoring container held by the platform after the upsert:
fresh server id and uuid, created by the reviewing organisation, extending the
primary record, own-organisation-only distribution, the score tag, and the
accumulated dated entries. -/
def upsertContainer (cfg : Config) (orig : MEvent) (n : Nat)
    (entries : List ScoringObj) : MEvent :=
  { id := n
    uuid := n
    orgc_id := cfg.yt_org_id
    info := "Scoring TR-" ++ toString orig.id ++ ": " ++ orig.info
    extends_uuid := some orig.uuid
    distribution := DISTRIBUTION_OWN_ORG_ONLY
    tags := [cfg.score_tag_id]
    objects := entries }

/-- C9: starting from a state with no scoring container for the primary
record, the first `score` call creates exactly one container (one new event),
the second call creates none, and after both calls the primary record has
exactly one scoring container — extending it, restricted to the reviewing
organisation (`DISTRIBUTION_OWN_ORG_ONLY`), tagged, and holding the two dated
entries in order. -/
theorem c9_scoring_upsert_idempotent (cfg : Config) (st0 : MispState)
    (event_id : Nat) (orig : MEvent) (v1 v2 : Int) (j1 j2 : String)
    (h1 : getEventById st0 event_id = some orig)
    (h2 : cfg.threat_report_tag_id ∈ orig.tags)
    (h3 : j1 ≠ "") (h4 : j2 ≠ "")
    (h5 : ∀ ev ∈ st0.events, ev.id < st0.nextId)
    (h6 : scoringContainers cfg st0 orig = []) :
    (score cfg st0 event_id v1 j1).events.length = st0.events.length + 1 ∧
    (score cfg (score cfg st0 event_id v1 j1) event_id v2 j2).events.length =
      (score cfg st0 event_id v1 j1).events.length ∧
    scoringContainers cfg
        (score cfg (score cfg st0 event_id v1 j1) event_id v2 j2) orig =
      [upsertContainer cfg orig st0.nextId
        [mkScoringObject cfg v1 j1, mkScoringObject cfg v2 j2]] := by
  have hnone : (extensionEvents st0 orig).find?
      (fun se =>
        se.orgc_id == cfg.yt_org_id &&
          se.tags.contains cfg.score_tag_id) = none := by
    rw [List.find?_eq_none]
    intro x hx hpx
    have hmem : x ∈ scoringContainers cfg st0 orig :=
      List.mem_filter.mpr ⟨hx, hpx⟩
    rw [h6] at hmem
    exact absurd hmem (List.not_mem_nil x)
  have hgse : get_scoring_event cfg st0 orig =
      ({ id := 0
         uuid := 0
         orgc_id := cfg.yt_org_id
         info := "Scoring TR-" ++ toString orig.id ++ ": " ++ orig.info
         extends_uuid := some orig.uuid
         distribution := DISTRIBUTION_OWN_ORG_ONLY
         tags := []
         objects := [] }, true) := by
    unfold get_scoring_event
    rw [hnone]
  have hst1 : score cfg st0 event_id v1 j1 =
      { events := st0.events ++ [upsertContainer cfg orig st0.nextId
          [mkScoringObject cfg v1 j1]]
        nextId := st0.nextId + 1 } := by
    simp only [score, h1]
    rw [if_neg (not_not_intro h2), if_neg h3, hgse]
    simp only [addEvent, tagEvent, addObject, List.map_append, List.map_cons,
      List.map_nil]
    rw [map_if_fresh st0.events st0.nextId _ h5,
      map_if_fresh st0.events st0.nextId _ h5]
    simp [upsertContainer]
  have h1u : st0.events.find? (fun ev => ev.id == event_id) = some orig := h1
  have hget1 : getEventById
      ({ events := st0.events ++ [upsertContainer cfg orig st0.nextId
          [mkScoringObject cfg v1 j1]]
         nextId := st0.nextId + 1 } : MispState) event_id = some orig := by
    unfold getEventById
    simp only [List.find?_append, h1u]
    rfl
  have hnoneu : (st0.events.filter
      (fun ev => ev.extends_uuid == some orig.uuid)).find?
      (fun se =>
        se.orgc_id == cfg.yt_org_id &&
          se.tags.contains cfg.score_tag_id) = none := hnone
  have hfind1 : (extensionEvents
      ({ events := st0.events ++ [upsertContainer cfg orig st0.nextId
          [mkScoringObject cfg v1 j1]]
         nextId := st0.nextId + 1 } : MispState) orig).find?
      (fun se =>
        se.orgc_id == cfg.yt_org_id &&
          se.tags.contains cfg.score_tag_id) =
      some (upsertContainer cfg orig st0.nextId
        [mkScoringObject cfg v1 j1]) := by
    unfold extensionEvents
    simp only [List.filter_append, List.find?_append, hnoneu]
    simp [upsertContainer, List.filter_cons, List.find?_cons]
  have hgse2 : get_scoring_event cfg
      ({ events := st0.events ++ [upsertContainer cfg orig st0.nextId
          [mkScoringObject cfg v1 j1]]
         nextId := st0.nextId + 1 } : MispState) orig =
      (upsertContainer cfg orig st0.nextId [mkScoringObject cfg v1 j1],
        false) := by
    unfold get_scoring_event
    rw [hfind1]
  have hst2 : score cfg (score cfg st0 event_id v1 j1) event_id v2 j2 =
      { events := st0.events ++ [upsertContainer cfg orig st0.nextId
          [mkScoringObject cfg v1 j1, mkScoringObject cfg v2 j2]]
        nextId := st0.nextId + 1 } := by
    rw [hst1]
    simp only [score, hget1]
    rw [if_neg (not_not_intro h2), if_neg h4, hgse2]
    simp only [addObject, upsertContainer, List.map_append, List.map_cons,
      List.map_nil]
    rw [map_if_fresh st0.events st0.nextId _ h5]
    simp [upsertContainer, mkScoringObject]
  refine ⟨?_, ?_, ?_⟩
  · rw [hst1]
    simp
  · rw [hst2, hst1]
    simp
  · rw [hst2]
    unfold scoringContainers extensionEvents
    have h6u : (st0.events.filter
        (fun ev => ev.extends_uuid == some orig.uuid)).filter
        (fun se =>
          se.orgc_id == cfg.yt_org_id &&
            se.tags.contains cfg.score_tag_id) = [] := h6
    simp only [List.filter_append, List.filter_filter] at h6u ⊢
    rw [show (List.filter
        (fun a =>
          (a.orgc_id == cfg.yt_org_id &&
            a.tags.contains cfg.score_tag_id) &&
            (a.extends_uuid == some orig.uuid)) st0.events) = [] from h6u]
    simp [upsertContainer, List.filter_cons]

/-- C9 witness: scoring the fixture record twice from a container-free state. -/
theorem c9_scoring_upsert_idempotent_witness :
    (score cfg0 st0W 1 4 "good").events.length = st0W.events.length + 1 ∧
    (score cfg0 (score cfg0 st0W 1 4 "good") 1 8 "better").events.length =
      (score cfg0 st0W 1 4 "good").events.length ∧
    scoringContainers cfg0
        (score cfg0 (score cfg0 st0W 1 4 "good") 1 8 "better") orig0 =
      [upsertContainer cfg0 orig0 st0W.nextId
        [mkScoringObject cfg0 4 "good", mkScoringObject cfg0 8 "better"]] :=
  c9_scoring_upsert_idempotent cfg0 st0W 1 orig0 4 8 "good" "better"
    (by decide) (by decide) (by decide) (by decide) (by decide) (by decide)

end MispTr
